import Mathlib

/-!
Shallow embedding of `src/fix_materials.py`.

The script reads `index.html`, applies fourteen `re.sub` substitutions to its
content, writes the result back and prints two status lines.  Every pattern
used by the script has the shape `LIT CLS+ LIT` (a literal, a nonempty greedy
run of a character class, a literal) or is a plain literal.  In every pattern
the first character of the trailing literal never belongs to the class, so the
greedy run never backtracks and a maximal-munch matcher is an exact model of
the regular-expression semantics.  `re.sub` replaces the leftmost match,
continues scanning right after it and never rescans replacement text, which is
exactly what `subF` below does (fuel-based so that it reduces in the kernel;
the fuel `s.length` is always sufficient because every match consumes at least
one character).
-/

/-- Consume the literal `pat` from the front of `s`, returning the rest of `s`
if `pat` is a prefix of `s`. -/
def eatLit : List Char → List Char → Option (List Char)
  | [], s => some s
  | _ :: _, [] => none
  | p :: ps, c :: cs => if c = p then eatLit ps cs else none

/-- Try to match the regex `pre CLS+ suf` at the front of `s`: the literal
`pre`, then a maximal nonempty run of characters satisfying `cls`, then the
literal `suf`.  Returns the rest of `s` after the match. -/
def matchTok (pre : List Char) (cls : Char → Bool) (suf : List Char)
    (s : List Char) : Option (List Char) :=
  match eatLit pre s with
  | none => none
  | some r1 =>
    if (r1.takeWhile cls).isEmpty then none else eatLit suf (r1.dropWhile cls)

/-- Try to match the plain literal `pat` at the front of `s`. -/
def matchLit (pat : List Char) (s : List Char) : Option (List Char) :=
  eatLit pat s

/-- Global replacement in the style of Python `re.sub`: scan left to right,
replace each (leftmost, non-overlapping) match of `m` by `repl` and continue
right after the match without rescanning the replacement. -/
def subF (m : List Char → Option (List Char)) (repl : List Char) :
    Nat → List Char → List Char
  | _, [] => []
  | 0, s => s
  | fuel + 1, c :: cs =>
    match m (c :: cs) with
    | some rest => repl ++ subF m repl fuel rest
    | none => c :: subF m repl fuel cs

/-- One `re.sub(pattern, repl, s)` call; the fuel `s.length` suffices because
every match consumes at least one character. -/
def applySub (m : List Char → Option (List Char)) (repl : List Char)
    (s : List Char) : List Char :=
  subF m repl s.length s

/-- Does `m` match at some position of `s` (scanning every suffix)? -/
def existsMatchL (m : List Char → Option (List Char)) : List Char → Bool
  | [] => false
  | c :: cs => (m (c :: cs)).isSome || existsMatchL m cs

/-- `m` matches at no position that starts inside `a`, where the text
continues with `t` after `a` (matches may extend into `t`). -/
def noMatchPref (m : List Char → Option (List Char)) :
    List Char → List Char → Bool
  | [], _ => true
  | c :: a, t => (m (c :: (a ++ t))).isNone && noMatchPref m a t

/-- `s` contains the literal `pat` as a contiguous substring. -/
def containsLit (pat s : List Char) : Bool :=
  existsMatchL (matchLit pat) s

/-- The regex character class `[0-9.]` used for numeric property values. -/
def numCls (c : Char) : Bool := decide (c ∈ "0123456789.".data)

/-- The regex character class `[0-9a-fA-F]` used for hex color values. -/
def hexCls (c : Char) : Bool := decide (c ∈ "0123456789abcdefABCDEF".data)

/-- The character class of the second position of the regex `  +`. -/
def spaceCls (c : Char) : Bool := decide (c = ' ')

/-- Matcher of `re.sub(r'; metalness: [0-9.]+', '', content)`. -/
def mMetalLead : List Char → Option (List Char) :=
  matchTok "; metalness: ".data numCls []

/-- Matcher of `re.sub(r'metalness: [0-9.]+; ', '', content)`. -/
def mMetalTrail : List Char → Option (List Char) :=
  matchTok "metalness: ".data numCls "; ".data

/-- Matcher of `re.sub(r'metalness: [0-9.]+', '', content)`. -/
def mMetalBare : List Char → Option (List Char) :=
  matchTok "metalness: ".data numCls []

/-- Matcher of `re.sub(r'; roughness: [0-9.]+', '', content)`. -/
def mRoughLead : List Char → Option (List Char) :=
  matchTok "; roughness: ".data numCls []

/-- Matcher of `re.sub(r'roughness: [0-9.]+; ', '', content)`. -/
def mRoughTrail : List Char → Option (List Char) :=
  matchTok "roughness: ".data numCls "; ".data

/-- Matcher of `re.sub(r'roughness: [0-9.]+', '', content)`. -/
def mRoughBare : List Char → Option (List Char) :=
  matchTok "roughness: ".data numCls []

/-- Matcher of `re.sub(r'; emissive: #[0-9a-fA-F]+', '', content)`. -/
def mEmisLead : List Char → Option (List Char) :=
  matchTok "; emissive: #".data hexCls []

/-- Matcher of `re.sub(r'emissive: #[0-9a-fA-F]+; ', '', content)`. -/
def mEmisTrail : List Char → Option (List Char) :=
  matchTok "emissive: #".data hexCls "; ".data

/-- Matcher of `re.sub(r'emissive: #[0-9a-fA-F]+', '', content)`. -/
def mEmisBare : List Char → Option (List Char) :=
  matchTok "emissive: #".data hexCls []

/-- Matcher of `re.sub(r'; emissiveIntensity: [0-9.]+', '', content)`. -/
def mEmisIntLead : List Char → Option (List Char) :=
  matchTok "; emissiveIntensity: ".data numCls []

/-- Matcher of `re.sub(r'emissiveIntensity: [0-9.]+; ', '', content)`. -/
def mEmisIntTrail : List Char → Option (List Char) :=
  matchTok "emissiveIntensity: ".data numCls "; ".data

/-- Matcher of `re.sub(r'emissiveIntensity: [0-9.]+', '', content)`. -/
def mEmisIntBare : List Char → Option (List Char) :=
  matchTok "emissiveIntensity: ".data numCls []

/-- Matcher of `re.sub(r'  +', ' ', content)`: a space followed by a nonempty
run of spaces, i.e. a run of two or more spaces. -/
def mSpaces : List Char → Option (List Char) :=
  matchTok " ".data spaceCls []

/-- Matcher of `re.sub(r'; "', '"', content)`. -/
def mSemiQuote : List Char → Option (List Char) :=
  matchLit "; \"".data

def subMetalLead (s : List Char) : List Char := applySub mMetalLead [] s
def subMetalTrail (s : List Char) : List Char := applySub mMetalTrail [] s
def subMetalBare (s : List Char) : List Char := applySub mMetalBare [] s
def subRoughLead (s : List Char) : List Char := applySub mRoughLead [] s
def subRoughTrail (s : List Char) : List Char := applySub mRoughTrail [] s
def subRoughBare (s : List Char) : List Char := applySub mRoughBare [] s
def subEmisLead (s : List Char) : List Char := applySub mEmisLead [] s
def subEmisTrail (s : List Char) : List Char := applySub mEmisTrail [] s
def subEmisBare (s : List Char) : List Char := applySub mEmisBare [] s
def subEmisIntLead (s : List Char) : List Char := applySub mEmisIntLead [] s
def subEmisIntTrail (s : List Char) : List Char := applySub mEmisIntTrail [] s
def subEmisIntBare (s : List Char) : List Char := applySub mEmisIntBare [] s
def subSpaces (s : List Char) : List Char := applySub mSpaces " ".data s
def subSemiQuote (s : List Char) : List Char := applySub mSemiQuote "\"".data s

/-- The full text transform of `fix_materials.py`: the twelve strip
substitutions followed by the two normalization substitutions, in source
order. -/
def fixContent (content : List Char) : List Char :=
  let content := subMetalLead content
  let content := subMetalTrail content
  let content := subMetalBare content
  let content := subRoughLead content
  let content := subRoughTrail content
  let content := subRoughBare content
  let content := subEmisLead content
  let content := subEmisTrail content
  let content := subEmisBare content
  let content := subEmisIntLead content
  let content := subEmisIntTrail content
  let content := subEmisIntBare content
  let content := subSpaces content
  let content := subSemiQuote content
  content

/-- The metalness strip group (its three substitutions in source order). -/
def stripMetalness (s : List Char) : List Char :=
  subMetalBare (subMetalTrail (subMetalLead s))

/-- The roughness strip group. -/
def stripRoughness (s : List Char) : List Char :=
  subRoughBare (subRoughTrail (subRoughLead s))

/-- The emissive strip group. -/
def stripEmissive (s : List Char) : List Char :=
  subEmisBare (subEmisTrail (subEmisLead s))

/-- The emissiveIntensity strip group. -/
def stripEmissiveIntensity (s : List Char) : List Char :=
  subEmisIntBare (subEmisIntTrail (subEmisIntLead s))

/-- The twelve strip substitutions, in source order. -/
def stripPhase (s : List Char) : List Char :=
  stripEmissiveIntensity (stripEmissive (stripRoughness (stripMetalness s)))

/-- The two normalization substitutions, in source order. -/
def normalizeContent (s : List Char) : List Char :=
  subSemiQuote (subSpaces s)

/-- Text with no bare-form occurrence of any of the four target tokens
(`<name>: <value>` with the source value patterns).  Leading- and
trailing-separator occurrences contain a bare occurrence, so this rules those
out as well. -/
def tokenFree (s : List Char) : Bool :=
  !(existsMatchL mMetalBare s) && !(existsMatchL mRoughBare s) &&
    !(existsMatchL mEmisBare s) && !(existsMatchL mEmisIntBare s)

/-- Fully cleaned text: no token occurrence, no run of two or more spaces and
no literal semicolon-space-quote sequence, i.e. no position at which any of
the fourteen substitution patterns can match. -/
def cleanText (s : List Char) : Bool :=
  tokenFree s && !(containsLit "  ".data s) && !(containsLit "; \"".data s)

/-- First character of `b`, if any, is not in the class `[0-9.]` (so a greedy
numeric value run cannot extend into `b`). -/
def headNotNum (b : List Char) : Bool :=
  match b with
  | [] => true
  | c :: _ => !(numCls c)

/-- Condition under which the occurrence of `"; metalness: 0.5"` between `a`
and `b` is the unique pattern match in the whole text `a ++ "; metalness: 0.5"
++ b`: no earlier match of the first pattern inside `a`, the value run stops
at `0.5` (the next character is not a digit or period), and after the removal
the remaining text `a ++ b` matches none of the other thirteen patterns. -/
def soleMetalLeadMatch (a b : List Char) : Bool :=
  noMatchPref mMetalLead a ("; metalness: 0.5".data ++ b) &&
    headNotNum b &&
    !(existsMatchL mMetalLead b) &&
    !(existsMatchL mMetalTrail (a ++ b)) &&
    !(existsMatchL mMetalBare (a ++ b)) &&
    !(existsMatchL mRoughLead (a ++ b)) &&
    !(existsMatchL mRoughTrail (a ++ b)) &&
    !(existsMatchL mRoughBare (a ++ b)) &&
    !(existsMatchL mEmisLead (a ++ b)) &&
    !(existsMatchL mEmisTrail (a ++ b)) &&
    !(existsMatchL mEmisBare (a ++ b)) &&
    !(existsMatchL mEmisIntLead (a ++ b)) &&
    !(existsMatchL mEmisIntTrail (a ++ b)) &&
    !(existsMatchL mEmisIntBare (a ++ b)) &&
    !(existsMatchL mSpaces (a ++ b)) &&
    !(existsMatchL mSemiQuote (a ++ b))

/-- The spec's numeric `value_pattern`: a run of digits and periods. -/
def valueDigitsPeriods (c : Char) : Bool := decide (c ∈ "0123456789.".data)

/-- The spec's color `value_pattern`: hexadecimal digits (the leading `#` is
passed separately as a value marker). -/
def valueHexDigits (c : Char) : Bool :=
  decide (c ∈ "0123456789abcdefABCDEF".data)

/-- The spec's `strip_property(text, property_name, value_pattern)` operation:
remove all occurrences of `"; <name>: <value>"`, then of `"<name>: <value>; "`,
then of bare `"<name>: <value>"`, in that priority order, each as an
independent global replacement over the whole text.  `vmark` is the literal
marker in front of the value run (`"#"` for colors, empty for numbers). -/
def strip_property (text : List Char) (name : List Char) (vmark : List Char)
    (vcls : Char → Bool) : List Char :=
  let lead :=
    applySub (matchTok (("; ".data ++ name ++ ": ".data) ++ vmark) vcls [])
      [] text
  let trail :=
    applySub (matchTok ((name ++ ": ".data) ++ vmark) vcls "; ".data) [] lead
  applySub (matchTok ((name ++ ": ".data) ++ vmark) vcls []) [] trail

/-- One observable effect of the script: writing the output file, or printing
a line to the console. -/
inductive Event
  | write : List Char → Event
  | print : List Char → Event

/-- The whole script, as a function from the content read from `index.html`
to the ordered list of its observable effects: it writes the transformed
content back and then prints the two status lines. -/
def runScript (content : List Char) : List Event :=
  [Event.write (fixContent content),
   Event.print "✅ Fixed all unsupported material properties!".data,
   Event.print "Removed: metalness, roughness, emissive, emissiveIntensity".data]

/-! ## Basic properties of the matchers -/

theorem eatLit_append (p r : List Char) : eatLit p (p ++ r) = some r := by
  induction p with
  | nil => rfl
  | cons c cs ih => simp [eatLit, ih]

theorem eatLit_eq_some {p : List Char} :
    ∀ {s r : List Char}, eatLit p s = some r → s = p ++ r := by
  induction p with
  | nil => intro s r h; simp [eatLit] at h; simp [h]
  | cons c cs ih =>
    intro s r h
    cases s with
    | nil => simp [eatLit] at h
    | cons d ds =>
      simp only [eatLit] at h
      split at h
      · next heq => subst heq; have h2 := ih h; simp [h2]
      · exact absurd h (by simp)

theorem eatLit_none_head {p c : Char} {ps cs : List Char} (h : c ≠ p) :
    eatLit (p :: ps) (c :: cs) = none := by
  simp [eatLit, h]

theorem matchTok_none_of_eat {pre suf s : List Char} {cls : Char → Bool}
    (h : eatLit pre s = none) : matchTok pre cls suf s = none := by
  simp [matchTok, h]

theorem matchTok_none_head {p c : Char} {ps suf cs : List Char}
    {cls : Char → Bool} (h : c ≠ p) :
    matchTok (p :: ps) cls suf (c :: cs) = none :=
  matchTok_none_of_eat (eatLit_none_head h)

theorem matchLit_none_head {p c : Char} {ps cs : List Char} (h : c ≠ p) :
    matchLit (p :: ps) (c :: cs) = none :=
  eatLit_none_head h

theorem matchTok_none_second {p0 p1 c d : Char} {ps suf cs : List Char}
    {cls : Char → Bool} (h : d ≠ p1) :
    matchTok (p0 :: p1 :: ps) cls suf (c :: d :: cs) = none := by
  by_cases hc : c = p0
  · subst hc
    apply matchTok_none_of_eat
    simp [eatLit, h]
  · exact matchTok_none_head hc

theorem takeWhile_cls_append {cls : Char → Bool} {v b : List Char}
    (hv : ∀ c ∈ v, cls c = true) (hb : ∀ c, b.head? = some c → cls c = false) :
    (v ++ b).takeWhile cls = v ∧ (v ++ b).dropWhile cls = b := by
  induction v with
  | nil =>
    cases b with
    | nil => simp
    | cons c cs =>
      have := hb c rfl
      simp [List.takeWhile_cons, List.dropWhile_cons, this]
  | cons c v2 ih =>
    have hc : cls c = true := hv c (by simp)
    have ih2 := ih (fun d hd => hv d (by simp [hd]))
    simp [List.takeWhile_cons, List.dropWhile_cons, hc, ih2.1, ih2.2]

theorem matchTok_eq {pre v b : List Char} {cls : Char → Bool} {suf : List Char}
    (hv : ∀ c ∈ v, cls c = true) (hne : v ≠ [])
    (hb : ∀ c, b.head? = some c → cls c = false) :
    matchTok pre cls suf (pre ++ v ++ b) = eatLit suf b := by
  have h1 : eatLit pre (pre ++ (v ++ b)) = some (v ++ b) := eatLit_append _ _
  have h2 := takeWhile_cls_append hv hb
  rw [List.append_assoc]
  simp only [matchTok, h1, h2.1, h2.2]
  simp [List.isEmpty_iff, hne]

theorem matchTok_none_next {pre t : List Char} {cls : Char → Bool}
    {suf : List Char} (h : ∀ c, t.head? = some c → cls c = false) :
    matchTok pre cls suf (pre ++ t) = none := by
  have h1 : eatLit pre (pre ++ t) = some t := eatLit_append _ _
  have h2 : t.takeWhile cls = [] := by
    cases t with
    | nil => rfl
    | cons c cs => simp [List.takeWhile_cons, h c rfl]
  simp [matchTok, h1, h2]

theorem matchTok_some_decomp {pre suf s r : List Char} {cls : Char → Bool}
    (h : matchTok pre cls suf s = some r) :
    ∃ run, run ≠ [] ∧ (∀ c ∈ run, cls c = true) ∧
      s = pre ++ run ++ suf ++ r ∧
      (∀ c, (suf ++ r).head? = some c → cls c = false) := by
  cases he : eatLit pre s with
  | none => rw [matchTok_none_of_eat he] at h; exact absurd h (by simp)
  | some r1 =>
    have h2 : (if (r1.takeWhile cls).isEmpty then none
        else eatLit suf (r1.dropWhile cls)) = some r := by
      rw [← h]; simp [matchTok, he]
    by_cases hrun : (r1.takeWhile cls).isEmpty
    · rw [if_pos hrun] at h2; exact absurd h2 (by simp)
    · rw [if_neg hrun] at h2
      refine ⟨r1.takeWhile cls, by simpa [List.isEmpty_iff] using hrun,
        fun c hc => List.mem_takeWhile_imp hc, ?_, ?_⟩
      · have hs := eatLit_eq_some he
        have hsuf := eatLit_eq_some h2
        have hr1 : r1 = r1.takeWhile cls ++ (suf ++ r) := by
          conv_lhs => rw [← List.takeWhile_append_dropWhile (p := cls) (l := r1)]
          rw [hsuf]
        rw [hs]
        conv_lhs => rw [hr1]
        simp
      · intro c hc
        have hsuf := eatLit_eq_some h2
        rw [← hsuf] at hc
        have h3 := List.head?_dropWhile_not cls r1
        rw [hc] at h3
        simpa using h3

/-! ## Properties of the global-replacement scanner -/

theorem subF_zero {m : List Char → Option (List Char)} {repl s : List Char} :
    subF m repl 0 s = s := by
  cases s <;> rfl

theorem subF_nil {m : List Char → Option (List Char)} {repl : List Char}
    {fuel : Nat} : subF m repl fuel [] = [] := by
  cases fuel <;> rfl

theorem subF_cons_none {m : List Char → Option (List Char)}
    {repl cs : List Char} {c : Char} {fuel : Nat} (h : m (c :: cs) = none) :
    subF m repl (fuel + 1) (c :: cs) = c :: subF m repl fuel cs := by
  simp [subF, h]

theorem subF_cons_some {m : List Char → Option (List Char)}
    {repl cs r : List Char} {c : Char} {fuel : Nat} (h : m (c :: cs) = some r) :
    subF m repl (fuel + 1) (c :: cs) = repl ++ subF m repl fuel r := by
  simp [subF, h]

theorem subF_some {m : List Char → Option (List Char)} {repl s r : List Char}
    {fuel : Nat} (h : m s = some r) (hs : s ≠ []) :
    subF m repl (fuel + 1) s = repl ++ subF m repl fuel r := by
  cases s with
  | nil => exact absurd rfl hs
  | cons c cs => exact subF_cons_some h

theorem subF_id_of_noMatch {m : List Char → Option (List Char)}
    {repl s : List Char} (h : existsMatchL m s = false) :
    ∀ fuel, subF m repl fuel s = s := by
  induction s with
  | nil => intro fuel; exact subF_nil
  | cons c cs ih =>
    intro fuel
    cases fuel with
    | zero => exact subF_zero
    | succ f =>
      rw [existsMatchL] at h
      have h1 : m (c :: cs) = none := by
        cases hm : m (c :: cs) with
        | none => rfl
        | some r => rw [hm] at h; simp at h
      have h2 : existsMatchL m cs = false := by
        cases h3 : existsMatchL m cs with
        | false => rfl
        | true => rw [h3] at h; simp at h
      rw [subF_cons_none h1, ih h2]

theorem applySub_id {m : List Char → Option (List Char)} {repl s : List Char}
    (h : existsMatchL m s = false) : applySub m repl s = s :=
  subF_id_of_noMatch h _

theorem subF_skip {m : List Char → Option (List Char)} {repl : List Char} :
    ∀ {a t : List Char}, noMatchPref m a t = true → ∀ fuel,
      subF m repl fuel (a ++ t) = a ++ subF m repl (fuel - a.length) t := by
  intro a
  induction a with
  | nil => intro t _ fuel; simp
  | cons c a2 ih =>
    intro t h fuel
    rw [noMatchPref] at h
    have h1 : m (c :: (a2 ++ t)) = none := by
      cases hm : m (c :: (a2 ++ t)) with
      | none => rfl
      | some r => rw [hm] at h; simp at h
    have h2 : noMatchPref m a2 t = true := by
      cases h3 : noMatchPref m a2 t with
      | true => rfl
      | false => rw [h3] at h; simp at h
    cases fuel with
    | zero =>
      rw [Nat.zero_sub, subF_zero, subF_zero]
    | succ f =>
      rw [List.cons_append, subF_cons_none h1, ih h2 f]
      simp [Nat.succ_sub_succ]

theorem existsMatchL_append {m : List Char → Option (List Char)} :
    ∀ {a t : List Char},
      existsMatchL m (a ++ t) = (!(noMatchPref m a t) || existsMatchL m t) := by
  intro a
  induction a with
  | nil => intro t; simp [noMatchPref]
  | cons c a2 ih =>
    intro t
    rw [List.cons_append, existsMatchL, noMatchPref, ih]
    cases m (c :: (a2 ++ t)) <;> simp

theorem existsMatchL_append_false {m : List Char → Option (List Char)}
    {a t : List Char} (h1 : noMatchPref m a t = true)
    (h2 : existsMatchL m t = false) : existsMatchL m (a ++ t) = false := by
  rw [existsMatchL_append, h1, h2]
  rfl

theorem noMatchPref_append {m : List Char → Option (List Char)} :
    ∀ {a1 a2 t : List Char},
      noMatchPref m (a1 ++ a2) t =
        (noMatchPref m a1 (a2 ++ t) && noMatchPref m a2 t) := by
  intro a1
  induction a1 with
  | nil => intro a2 t; simp [noMatchPref]
  | cons c a0 ih =>
    intro a2 t
    rw [List.cons_append, noMatchPref, noMatchPref, ih, List.append_assoc]
    cases m (c :: (a0 ++ (a2 ++ t))) <;> simp [Bool.and_assoc]

theorem noMatchPref_cons {m : List Char → Option (List Char)}
    {a t : List Char} {c : Char} (h1 : m (c :: (a ++ t)) = none)
    (h2 : noMatchPref m a t = true) : noMatchPref m (c :: a) t = true := by
  rw [noMatchPref, h1, h2]
  rfl

theorem noMatchPref_of_none {m : List Char → Option (List Char)}
    {v t : List Char} (h : ∀ c ∈ v, ∀ cs, m (c :: cs) = none) :
    noMatchPref m v t = true := by
  induction v with
  | nil => rfl
  | cons c v2 ih =>
    exact noMatchPref_cons (h c (by simp) _)
      (ih (fun d hd cs => h d (by simp [hd]) cs))

theorem existsMatchL_of_none {m : List Char → Option (List Char)}
    {v : List Char} (h : ∀ c ∈ v, ∀ cs, m (c :: cs) = none) :
    existsMatchL m v = false := by
  induction v with
  | nil => rfl
  | cons c v2 ih =>
    rw [existsMatchL, h c (by simp) v2]
    exact ih (fun d hd cs => h d (by simp [hd]) cs)

theorem existsMatchL_cons_tail {m : List Char → Option (List Char)}
    {cs : List Char} {c : Char} (h : existsMatchL m cs = true) :
    existsMatchL m (c :: cs) = true := by
  rw [existsMatchL, h]
  simp

theorem existsMatchL_head_some {m : List Char → Option (List Char)}
    {cs r : List Char} {c : Char} (h : m (c :: cs) = some r) :
    existsMatchL m (c :: cs) = true := by
  rw [existsMatchL, h]
  rfl

theorem existsMatchL_transfer {m1 m2 : List Char → Option (List Char)}
    (h : ∀ c cs, (m1 (c :: cs)).isSome = true → existsMatchL m2 (c :: cs) = true) :
    ∀ {s : List Char}, existsMatchL m2 s = false → existsMatchL m1 s = false := by
  intro s
  induction s with
  | nil => intro _; rfl
  | cons c cs ih =>
    intro h2
    have h3 : existsMatchL m2 cs = false := by
      rw [existsMatchL] at h2
      cases h4 : existsMatchL m2 cs with
      | false => rfl
      | true => rw [h4] at h2; simp at h2
    rw [existsMatchL, ih h3]
    cases hm : m1 (c :: cs) with
    | none => rfl
    | some r =>
      have h5 := h c cs (by rw [hm]; rfl)
      rw [h5] at h2
      exact absurd h2 (by simp)

theorem applySub_single {m : List Char → Option (List Char)}
    {repl a t r : List Char} (ha : noMatchPref m a t = true)
    (hm : m t = some r) (ht : t ≠ []) (hr : existsMatchL m r = false) :
    applySub m repl (a ++ t) = a ++ repl ++ r := by
  unfold applySub
  rw [subF_skip ha]
  obtain ⟨k, hk⟩ : ∃ k, (a ++ t).length - a.length = k + 1 := by
    refine ⟨(a ++ t).length - a.length - 1, ?_⟩
    have : t.length ≠ 0 := by
      cases t with
      | nil => exact absurd rfl ht
      | cons x xs => simp
    simp [List.length_append]
    omega
  rw [hk, subF_some hm ht, subF_id_of_noMatch hr]
  simp [List.append_assoc]

/-! ## Character-class facts and run lemmas -/

theorem cls_ne {cls : Char → Bool} {c x : Char} (hx : cls x = false)
    (h : cls c = true) : c ≠ x := by
  intro he
  rw [he, hx] at h
  exact absurd h (by simp)

theorem noMatchPref_two {p0 p1 : Char} {ps : List Char} {cls cls0 : Char → Bool}
    {suf : List Char} :
    ∀ {v t : List Char}, (∀ c ∈ v, cls0 c = true) →
      (∀ d, cls0 d = true → d ≠ p1) → (∀ d, t.head? = some d → d ≠ p1) →
      noMatchPref (matchTok (p0 :: p1 :: ps) cls suf) v t = true := by
  intro v
  induction v with
  | nil => intro t _ _ _; rfl
  | cons c v2 ih =>
    intro t hv h1 h2
    have hv2 : ∀ c ∈ v2, cls0 c = true := fun d hd => hv d (by simp [hd])
    refine noMatchPref_cons ?_ (ih hv2 h1 h2)
    by_cases hc : c = p0
    · subst hc
      cases hv2t : v2 ++ t with
      | nil =>
        apply matchTok_none_of_eat
        simp [eatLit]
      | cons d ds =>
        refine matchTok_none_second ?_
        cases v2 with
        | nil =>
          refine h2 d ?_
          simp only [List.nil_append] at hv2t
          rw [hv2t]
          rfl
        | cons e es =>
          have hde : e = d := by simpa using congrArg List.head? hv2t
          subst hde
          exact h1 e (hv2 e (by simp))
    · exact matchTok_none_head hc

/-! ## Preservation lemmas used for the implicit invariants -/

theorem subF_count {m : List Char → Option (List Char)} {repl : List Char}
    {x : Char}
    (hm : ∀ s r, m s = some r → ∃ e, s = e ++ r ∧ e.count x = 0)
    (hrepl : repl.count x = 0) :
    ∀ fuel s, (subF m repl fuel s).count x = s.count x := by
  intro fuel
  induction fuel with
  | zero => intro s; rw [subF_zero]
  | succ f ih =>
    intro s
    cases s with
    | nil => rw [subF_nil]
    | cons c cs =>
      cases hmc : m (c :: cs) with
      | none =>
        rw [subF_cons_none hmc, List.count_cons, List.count_cons, ih cs]
      | some r =>
        obtain ⟨e, he, hce⟩ := hm _ _ hmc
        rw [subF_cons_some hmc, List.count_append, hrepl, ih r, he,
          List.count_append, hce]

theorem subF_length {m : List Char → Option (List Char)} {repl : List Char}
    (hm : ∀ s r, m s = some r → repl.length + r.length ≤ s.length) :
    ∀ fuel s, (subF m repl fuel s).length ≤ s.length := by
  intro fuel
  induction fuel with
  | zero => intro s; rw [subF_zero]
  | succ f ih =>
    intro s
    cases s with
    | nil => rw [subF_nil]
    | cons c cs =>
      cases hmc : m (c :: cs) with
      | none =>
        rw [subF_cons_none hmc]
        simpa using ih cs
      | some r =>
        rw [subF_cons_some hmc]
        have h1 := hm _ _ hmc
        have h2 := ih r
        simp only [List.length_append]
        omega

theorem matchTok_eaten {pre suf : List Char} {cls : Char → Bool} {x : Char}
    (hpre : x ∉ pre) (hsuf : x ∉ suf) (hcls : cls x = false) :
    ∀ s r, matchTok pre cls suf s = some r → ∃ e, s = e ++ r ∧ e.count x = 0 := by
  intro s r h
  obtain ⟨run, _, hall, hs, _⟩ := matchTok_some_decomp h
  refine ⟨pre ++ run ++ suf, by rw [hs], ?_⟩
  have hx : x ∉ run := fun hmem => absurd rfl (cls_ne hcls (hall x hmem))
  simp [List.count_append, List.count_eq_zero.mpr, hpre, hsuf, hx]

theorem matchLit_eaten {pat : List Char} {x : Char} (hpat : x ∉ pat) :
    ∀ s r, matchLit pat s = some r → ∃ e, s = e ++ r ∧ e.count x = 0 := by
  intro s r h
  exact ⟨pat, eatLit_eq_some h, List.count_eq_zero.mpr hpat⟩

theorem matchTok_consumed {pre suf s r : List Char} {cls : Char → Bool}
    (h : matchTok pre cls suf s = some r) :
    pre.length + 1 + suf.length + r.length ≤ s.length := by
  obtain ⟨run, hne, _, hs, _⟩ := matchTok_some_decomp h
  have : 1 ≤ run.length := by
    cases run with
    | nil => exact absurd rfl hne
    | cons a as => simp
  rw [hs]
  simp [List.length_append]
  omega

theorem matchLit_consumed {pat s r : List Char} (h : matchLit pat s = some r) :
    pat.length + r.length ≤ s.length := by
  rw [eatLit_eq_some h]
  simp [List.length_append]

/-! ## If the bare token form never matches, neither do the separator forms -/

theorem existsMatchL_lead_false {pre2 s : List Char} {cls : Char → Bool}
    (h : existsMatchL (matchTok pre2 cls []) s = false) :
    existsMatchL (matchTok (';' :: ' ' :: pre2) cls []) s = false := by
  refine existsMatchL_transfer ?_ h
  intro c cs hsome
  cases hm : matchTok (';' :: ' ' :: pre2) cls [] (c :: cs) with
  | none => rw [hm] at hsome; exact absurd hsome (by simp)
  | some r =>
    obtain ⟨run, hne, hall, hs, hnext⟩ := matchTok_some_decomp hm
    have hs2 : c :: cs = ';' :: ' ' :: (pre2 ++ run ++ r) := by
      rw [hs]; simp
    rw [hs2]
    apply existsMatchL_cons_tail
    apply existsMatchL_cons_tail
    have hm2 : matchTok pre2 cls [] (pre2 ++ run ++ r) = some r := by
      rw [matchTok_eq hall hne ?_]
      · rfl
      · intro d hd
        exact hnext d (by simpa using hd)
    cases hpr : pre2 ++ run ++ r with
    | nil =>
      have h0 : run = [] := by
        have h1 := hpr
        simp at h1
        exact h1.2.1
      exact absurd h0 hne
    | cons d ds =>
      rw [hpr] at hm2
      exact existsMatchL_head_some hm2

theorem existsMatchL_trail_false {pre2 s : List Char} {cls : Char → Bool}
    (hsemi : cls ';' = false)
    (h : existsMatchL (matchTok pre2 cls []) s = false) :
    existsMatchL (matchTok pre2 cls (';' :: ' ' :: [])) s = false := by
  refine existsMatchL_transfer ?_ h
  intro c cs hsome
  cases hm : matchTok pre2 cls (';' :: ' ' :: []) (c :: cs) with
  | none => rw [hm] at hsome; exact absurd hsome (by simp)
  | some r =>
    obtain ⟨run, hne, hall, hs, _⟩ := matchTok_some_decomp hm
    have hnext2 : ∀ d, ((';' :: ' ' :: []) ++ r).head? = some d → cls d = false := by
      intro d hd
      simp at hd
      rw [← hd, hsemi]
    have hm2 : matchTok pre2 cls [] (c :: cs) = some ((';' :: ' ' :: []) ++ r) := by
      rw [hs]
      have heval : matchTok pre2 cls []
          (pre2 ++ run ++ ((';' :: ' ' :: []) ++ r)) =
            eatLit [] ((';' :: ' ' :: []) ++ r) :=
        matchTok_eq hall hne hnext2
      have hassoc : (pre2 ++ run ++ (';' :: ' ' :: []) ++ r : List Char) =
          pre2 ++ run ++ ((';' :: ' ' :: []) ++ r) := by
        simp [List.append_assoc]
      rw [hassoc, heval]
      rfl
    exact existsMatchL_head_some hm2

theorem existsMatchL_spaces_false {s : List Char}
    (h : containsLit "  ".data s = false) : existsMatchL mSpaces s = false := by
  refine existsMatchL_transfer ?_ h
  intro c cs hsome
  cases hm : mSpaces (c :: cs) with
  | none => rw [hm] at hsome; exact absurd hsome (by simp)
  | some r =>
    obtain ⟨run, hne, hall, hs, _⟩ := matchTok_some_decomp hm
    cases run with
    | nil => exact absurd rfl hne
    | cons d ds =>
      have hd : d = ' ' := by
        have := hall d (by simp)
        simpa [spaceCls] using this
      have hs2 : c :: cs = ' ' :: ' ' :: (ds ++ r) := by
        rw [hs, hd]; simp
      rw [hs2]
      apply existsMatchL_head_some (r := ds ++ r)
      simp [matchLit, eatLit]

/-! ## Identity of the passes on clean text -/

theorem metal_lead_free {s : List Char} (h : existsMatchL mMetalBare s = false) :
    existsMatchL mMetalLead s = false :=
  existsMatchL_lead_false h

theorem metal_trail_free {s : List Char} (h : existsMatchL mMetalBare s = false) :
    existsMatchL mMetalTrail s = false :=
  existsMatchL_trail_false (by decide) h

theorem rough_lead_free {s : List Char} (h : existsMatchL mRoughBare s = false) :
    existsMatchL mRoughLead s = false :=
  existsMatchL_lead_false h

theorem rough_trail_free {s : List Char} (h : existsMatchL mRoughBare s = false) :
    existsMatchL mRoughTrail s = false :=
  existsMatchL_trail_false (by decide) h

theorem emis_lead_free {s : List Char} (h : existsMatchL mEmisBare s = false) :
    existsMatchL mEmisLead s = false :=
  existsMatchL_lead_false h

theorem emis_trail_free {s : List Char} (h : existsMatchL mEmisBare s = false) :
    existsMatchL mEmisTrail s = false :=
  existsMatchL_trail_false (by decide) h

theorem emisInt_lead_free {s : List Char}
    (h : existsMatchL mEmisIntBare s = false) :
    existsMatchL mEmisIntLead s = false :=
  existsMatchL_lead_false h

theorem emisInt_trail_free {s : List Char}
    (h : existsMatchL mEmisIntBare s = false) :
    existsMatchL mEmisIntTrail s = false :=
  existsMatchL_trail_false (by decide) h

theorem stripMetalness_id {s : List Char}
    (h : existsMatchL mMetalBare s = false) : stripMetalness s = s := by
  unfold stripMetalness subMetalLead subMetalTrail subMetalBare
  rw [applySub_id (metal_lead_free h), applySub_id (metal_trail_free h),
    applySub_id h]

theorem stripRoughness_id {s : List Char}
    (h : existsMatchL mRoughBare s = false) : stripRoughness s = s := by
  unfold stripRoughness subRoughLead subRoughTrail subRoughBare
  rw [applySub_id (rough_lead_free h), applySub_id (rough_trail_free h),
    applySub_id h]

theorem stripEmissive_id {s : List Char}
    (h : existsMatchL mEmisBare s = false) : stripEmissive s = s := by
  unfold stripEmissive subEmisLead subEmisTrail subEmisBare
  rw [applySub_id (emis_lead_free h), applySub_id (emis_trail_free h),
    applySub_id h]

theorem stripEmissiveIntensity_id {s : List Char}
    (h : existsMatchL mEmisIntBare s = false) : stripEmissiveIntensity s = s := by
  unfold stripEmissiveIntensity subEmisIntLead subEmisIntTrail subEmisIntBare
  rw [applySub_id (emisInt_lead_free h), applySub_id (emisInt_trail_free h),
    applySub_id h]

theorem tokenFree_split {s : List Char} (h : tokenFree s = true) :
    existsMatchL mMetalBare s = false ∧ existsMatchL mRoughBare s = false ∧
      existsMatchL mEmisBare s = false ∧ existsMatchL mEmisIntBare s = false := by
  rw [tokenFree] at h
  simp only [Bool.and_eq_true, Bool.not_eq_true'] at h
  exact ⟨h.1.1.1, h.1.1.2, h.1.2, h.2⟩

theorem cleanText_parts {s : List Char} (h : cleanText s = true) :
    tokenFree s = true ∧ containsLit "  ".data s = false ∧
      containsLit "; \"".data s = false := by
  rw [cleanText] at h
  simp only [Bool.and_eq_true, Bool.not_eq_true'] at h
  exact ⟨h.1.1, h.1.2, h.2⟩

theorem fixContent_id_of_clean {s : List Char} (h : cleanText s = true) :
    fixContent s = s := by
  obtain ⟨htok, hsp, hsq0⟩ := cleanText_parts h
  have hsq : existsMatchL mSemiQuote s = false := hsq0
  obtain ⟨h1, h2, h3, h4⟩ := tokenFree_split htok
  show subSemiQuote (subSpaces (subEmisIntBare (subEmisIntTrail (subEmisIntLead
    (subEmisBare (subEmisTrail (subEmisLead (subRoughBare (subRoughTrail
      (subRoughLead (subMetalBare (subMetalTrail (subMetalLead s))))))))))))) = s
  unfold subMetalLead subMetalTrail subMetalBare subRoughLead subRoughTrail
    subRoughBare subEmisLead subEmisTrail subEmisBare subEmisIntLead
    subEmisIntTrail subEmisIntBare subSpaces subSemiQuote
  rw [applySub_id (metal_lead_free h1), applySub_id (metal_trail_free h1),
    applySub_id h1, applySub_id (rough_lead_free h2),
    applySub_id (rough_trail_free h2), applySub_id h2,
    applySub_id (emis_lead_free h3), applySub_id (emis_trail_free h3),
    applySub_id h3, applySub_id (emisInt_lead_free h4),
    applySub_id (emisInt_trail_free h4), applySub_id h4,
    applySub_id (existsMatchL_spaces_false hsp), applySub_id hsq]

/-! ## Per-pass preservation helpers -/

theorem applySub_count_tok {pre suf repl : List Char} {cls : Char → Bool}
    {x : Char} (hpre : x ∉ pre) (hsuf : x ∉ suf) (hcls : cls x = false)
    (hrepl : repl.count x = 0) (s : List Char) :
    (applySub (matchTok pre cls suf) repl s).count x = s.count x :=
  subF_count (matchTok_eaten hpre hsuf hcls) hrepl _ s

theorem applySub_count_lit {pat repl : List Char} {x : Char} (hpat : x ∉ pat)
    (hrepl : repl.count x = 0) (s : List Char) :
    (applySub (matchLit pat) repl s).count x = s.count x :=
  subF_count (matchLit_eaten hpat) hrepl _ s

theorem applySub_len_tok {pre suf repl : List Char} {cls : Char → Bool}
    (hr : repl.length ≤ pre.length + 1 + suf.length) (s : List Char) :
    (applySub (matchTok pre cls suf) repl s).length ≤ s.length :=
  subF_length (fun s2 r h => by have := matchTok_consumed h; omega) _ s

theorem applySub_len_lit {pat repl : List Char} (hr : repl.length ≤ pat.length)
    (s : List Char) :
    (applySub (matchLit pat) repl s).length ≤ s.length :=
  subF_length (fun s2 r h => by have := matchLit_consumed h; omega) _ s

theorem foldl_apply_id {s : List Char} :
    ∀ l : List (List Char → List Char), (∀ g ∈ l, g s = s) →
      l.foldl (fun t g => g t) s = s := by
  intro l
  induction l with
  | nil => intro _; rfl
  | cons g l2 ih =>
    intro h
    rw [List.foldl_cons, h g (by simp)]
    exact ih (fun g2 hg2 => h g2 (by simp [hg2]))

/-! ## Claim theorems -/

/-- Claim C1: for each of the four properties (metalness, roughness,
emissiveIntensity with a numeric value pattern; emissive with a hash-hex value
pattern), the strip step removes the leading-separator form, then the
trailing-separator form, then the bare form, in that priority order, each as
an independent global replacement over the whole text — i.e. the source's
twelve strip substitutions are exactly the spec's `strip_property` applied to
the four properties in source order. -/
theorem C1_strip_forms_priority_order (s : List Char) :
    stripPhase s =
      strip_property
        (strip_property
          (strip_property
            (strip_property s "metalness".data [] valueDigitsPeriods)
            "roughness".data [] valueDigitsPeriods)
          "emissive".data "#".data valueHexDigits)
        "emissiveIntensity".data [] valueDigitsPeriods := rfl

/-- Claim C8: on every successful run the script writes the transformed file
content and then emits exactly the two literal status lines, in that order,
after the write. -/
theorem C8_status_lines_after_write (content : List Char) :
    runScript content =
      [Event.write (fixContent content),
       Event.print "✅ Fixed all unsupported material properties!".data,
       Event.print "Removed: metalness, roughness, emissive, emissiveIntensity".data] :=
  rfl

/-- Counterexample to claim C2 as stated: the full transform is not idempotent
on every input.  On the five-character input `; ; "` one pass yields `; "`
(the substitution of `; "` happens at the second semicolon and creates a new
`; "` at the junction, which is not rescanned), while a second pass reduces
that to `"`. -/
theorem C2_counterexample :
    fixContent (fixContent "; ; \"".data) ≠ fixContent "; ; \"".data := by
  decide

/-- Claim C2 (amended): the full transform is idempotent on already-cleaned
text — on any text in which none of the fourteen patterns matches (no token
occurrence, no run of two or more spaces, no semicolon-space-quote sequence),
one application is the identity, so two applications equal one. -/
theorem C2_idempotent_on_clean {s : List Char} (h : cleanText s = true) :
    fixContent (fixContent s) = fixContent s := by
  rw [fixContent_id_of_clean h, fixContent_id_of_clean h]

/-- Witness for C2 (amended) at a concrete clean input. -/
theorem C2_idempotent_on_clean_witness :
    cleanText "material=\"color: red\"".data = true ∧
      fixContent (fixContent "material=\"color: red\"".data) =
        fixContent "material=\"color: red\"".data :=
  ⟨by decide, C2_idempotent_on_clean (by decide)⟩

/-- Counterexample to claim C3 as stated: the four strip groups do not commute
on every input.  On `metalroughness: 1ness: 1`, running the roughness group
first produces `metalness: 1` (a junction artifact), which the metalness group
then deletes; in the source order the metalness group runs first and finds
nothing, so the final texts differ. -/
theorem C3_counterexample :
    stripEmissiveIntensity (stripEmissive (stripMetalness (stripRoughness
      "metalroughness: 1ness: 1".data))) ≠
    stripEmissiveIntensity (stripEmissive (stripRoughness (stripMetalness
      "metalroughness: 1ness: 1".data))) := by
  decide

/-- Claim C3 (amended): on text containing no occurrence of any of the four
tokens, every relative order of the four strip groups yields the same final
text (namely the text itself, since each group is then the identity); in
general the groups need not commute. -/
theorem C3_any_group_order_on_token_free {s : List Char}
    (h : tokenFree s = true) (l : List (List Char → List Char))
    (hl : l.Perm [stripMetalness, stripRoughness, stripEmissive,
      stripEmissiveIntensity]) :
    l.foldl (fun t g => g t) s = s := by
  obtain ⟨h1, h2, h3, h4⟩ := tokenFree_split h
  refine foldl_apply_id l ?_
  intro g hg
  have hmem := hl.mem_iff.mp hg
  simp only [List.mem_cons, List.not_mem_nil, or_false] at hmem
  rcases hmem with h | h | h | h
  · rw [h]; exact stripMetalness_id h1
  · rw [h]; exact stripRoughness_id h2
  · rw [h]; exact stripEmissive_id h3
  · rw [h]; exact stripEmissiveIntensity_id h4

/-- Witness for C3 (amended): a non-source order of the groups on token-free
text. -/
theorem C3_any_group_order_on_token_free_witness :
    tokenFree "hello world".data = true ∧
      [stripRoughness, stripMetalness, stripEmissive,
        stripEmissiveIntensity].foldl (fun t g => g t) "hello world".data =
        "hello world".data :=
  ⟨by decide, C3_any_group_order_on_token_free (by decide) _
    (List.Perm.swap stripMetalness stripRoughness
      [stripEmissive, stripEmissiveIntensity])⟩

/-- Counterexample to claim C4 as stated: a text with no token occurrence is
not always returned unchanged, because the normalization passes still act; on
the two-space input the transform returns a single space. -/
theorem C4_counterexample :
    tokenFree "  ".data = true ∧ fixContent "  ".data ≠ "  ".data := by
  decide

/-- Claim C4 (amended): an input that contains no occurrence of any of the
four target tokens and also no run of two or more spaces and no
semicolon-space-quote sequence is returned unchanged by the full transform. -/
theorem C4_identity_on_clean {s : List Char} (h : cleanText s = true) :
    fixContent s = s :=
  fixContent_id_of_clean h

/-- Witness for C4 (amended) at a concrete clean input. -/
theorem C4_identity_on_clean_witness :
    cleanText "<div class=\"room\"> hello </div>".data = true ∧
      fixContent "<div class=\"room\"> hello </div>".data =
        "<div class=\"room\"> hello </div>".data :=
  ⟨by decide, C4_identity_on_clean (by decide)⟩

/-- Claim C5: the normalization step only collapses runs of two or more
spaces and rewrites the literal semicolon-space-quote sequence; on any text
containing neither it is the identity (single spaces and other semicolons are
untouched). -/
theorem C5_normalize_identity {s : List Char}
    (h1 : containsLit "  ".data s = false)
    (h2 : containsLit "; \"".data s = false) :
    normalizeContent s = s := by
  have h2b : existsMatchL mSemiQuote s = false := h2
  unfold normalizeContent subSpaces subSemiQuote
  rw [applySub_id (existsMatchL_spaces_false h1), applySub_id h2b]

/-- Witness for C5 at a concrete input with single spaces and a semicolon not
followed by space-then-quote. -/
theorem C5_normalize_identity_witness :
    containsLit "  ".data "a b; c \"d\"".data = false ∧
      containsLit "; \"".data "a b; c \"d\"".data = false ∧
      normalizeContent "a b; c \"d\"".data = "a b; c \"d\"".data :=
  ⟨by decide, by decide, C5_normalize_identity (by decide) (by decide)⟩

/-- Claim C9: no substitution pattern or replacement contains a newline, so
the full transform preserves the number of newline characters (and therefore
the line count); since all newlines are the one character, their relative
order is preserved as well. -/
theorem C9_newline_count_invariant (s : List Char) :
    (fixContent s).count '\n' = s.count '\n' := by
  have e1 : ∀ t : List Char, (subMetalLead t).count '\n' = t.count '\n' :=
    fun t => applySub_count_tok (by decide) (by decide) (by decide) (by decide) t
  have e2 : ∀ t : List Char, (subMetalTrail t).count '\n' = t.count '\n' :=
    fun t => applySub_count_tok (by decide) (by decide) (by decide) (by decide) t
  have e3 : ∀ t : List Char, (subMetalBare t).count '\n' = t.count '\n' :=
    fun t => applySub_count_tok (by decide) (by decide) (by decide) (by decide) t
  have e4 : ∀ t : List Char, (subRoughLead t).count '\n' = t.count '\n' :=
    fun t => applySub_count_tok (by decide) (by decide) (by decide) (by decide) t
  have e5 : ∀ t : List Char, (subRoughTrail t).count '\n' = t.count '\n' :=
    fun t => applySub_count_tok (by decide) (by decide) (by decide) (by decide) t
  have e6 : ∀ t : List Char, (subRoughBare t).count '\n' = t.count '\n' :=
    fun t => applySub_count_tok (by decide) (by decide) (by decide) (by decide) t
  have e7 : ∀ t : List Char, (subEmisLead t).count '\n' = t.count '\n' :=
    fun t => applySub_count_tok (by decide) (by decide) (by decide) (by decide) t
  have e8 : ∀ t : List Char, (subEmisTrail t).count '\n' = t.count '\n' :=
    fun t => applySub_count_tok (by decide) (by decide) (by decide) (by decide) t
  have e9 : ∀ t : List Char, (subEmisBare t).count '\n' = t.count '\n' :=
    fun t => applySub_count_tok (by decide) (by decide) (by decide) (by decide) t
  have e10 : ∀ t : List Char, (subEmisIntLead t).count '\n' = t.count '\n' :=
    fun t => applySub_count_tok (by decide) (by decide) (by decide) (by decide) t
  have e11 : ∀ t : List Char, (subEmisIntTrail t).count '\n' = t.count '\n' :=
    fun t => applySub_count_tok (by decide) (by decide) (by decide) (by decide) t
  have e12 : ∀ t : List Char, (subEmisIntBare t).count '\n' = t.count '\n' :=
    fun t => applySub_count_tok (by decide) (by decide) (by decide) (by decide) t
  have e13 : ∀ t : List Char, (subSpaces t).count '\n' = t.count '\n' :=
    fun t => applySub_count_tok (by decide) (by decide) (by decide) (by decide) t
  have e14 : ∀ t : List Char, (subSemiQuote t).count '\n' = t.count '\n' :=
    fun t => applySub_count_lit (by decide) (by decide) t
  show (subSemiQuote (subSpaces (subEmisIntBare (subEmisIntTrail (subEmisIntLead
    (subEmisBare (subEmisTrail (subEmisLead (subRoughBare (subRoughTrail
      (subRoughLead (subMetalBare (subMetalTrail (subMetalLead
        s)))))))))))))).count '\n' = s.count '\n'
  rw [e14, e13, e12, e11, e10, e9, e8, e7, e6, e5, e4, e3, e2, e1]

/-- Claim C10: each of the fourteen substitutions replaces its match with a
string no longer than the match, so the full transform never lengthens the
text. -/
theorem C10_length_nonincreasing (s : List Char) :
    (fixContent s).length ≤ s.length := by
  have e1 : ∀ t : List Char, (subMetalLead t).length ≤ t.length :=
    fun t => applySub_len_tok (by decide) t
  have e2 : ∀ t : List Char, (subMetalTrail t).length ≤ t.length :=
    fun t => applySub_len_tok (by decide) t
  have e3 : ∀ t : List Char, (subMetalBare t).length ≤ t.length :=
    fun t => applySub_len_tok (by decide) t
  have e4 : ∀ t : List Char, (subRoughLead t).length ≤ t.length :=
    fun t => applySub_len_tok (by decide) t
  have e5 : ∀ t : List Char, (subRoughTrail t).length ≤ t.length :=
    fun t => applySub_len_tok (by decide) t
  have e6 : ∀ t : List Char, (subRoughBare t).length ≤ t.length :=
    fun t => applySub_len_tok (by decide) t
  have e7 : ∀ t : List Char, (subEmisLead t).length ≤ t.length :=
    fun t => applySub_len_tok (by decide) t
  have e8 : ∀ t : List Char, (subEmisTrail t).length ≤ t.length :=
    fun t => applySub_len_tok (by decide) t
  have e9 : ∀ t : List Char, (subEmisBare t).length ≤ t.length :=
    fun t => applySub_len_tok (by decide) t
  have e10 : ∀ t : List Char, (subEmisIntLead t).length ≤ t.length :=
    fun t => applySub_len_tok (by decide) t
  have e11 : ∀ t : List Char, (subEmisIntTrail t).length ≤ t.length :=
    fun t => applySub_len_tok (by decide) t
  have e12 : ∀ t : List Char, (subEmisIntBare t).length ≤ t.length :=
    fun t => applySub_len_tok (by decide) t
  have e13 : ∀ t : List Char, (subSpaces t).length ≤ t.length :=
    fun t => applySub_len_tok (by decide) t
  have e14 : ∀ t : List Char, (subSemiQuote t).length ≤ t.length :=
    fun t => applySub_len_lit (by decide) t
  show (subSemiQuote (subSpaces (subEmisIntBare (subEmisIntTrail (subEmisIntLead
    (subEmisBare (subEmisTrail (subEmisLead (subRoughBare (subRoughTrail
      (subRoughLead (subMetalBare (subMetalTrail (subMetalLead
        s)))))))))))))).length ≤ s.length
  exact le_trans (e14 _) (le_trans (e13 _) (le_trans (e12 _) (le_trans (e11 _)
    (le_trans (e10 _) (le_trans (e9 _) (le_trans (e8 _) (le_trans (e7 _)
      (le_trans (e6 _) (le_trans (e5 _) (le_trans (e4 _) (le_trans (e3 _)
        (le_trans (e2 _) (e1 s)))))))))))))

/-! ## Claim C7 -/

theorem headNotNum_head {b : List Char} (h : headNotNum b = true) :
    ∀ c, b.head? = some c → numCls c = false := by
  intro c hc
  cases b with
  | nil => simp at hc
  | cons d ds =>
    simp only [List.head?_cons, Option.some_inj] at hc
    simp only [headNotNum, Bool.not_eq_true'] at h
    rw [hc] at h
    exact h

/-- Counterexample to claim C7 as stated: on `a; metalness: 0.55` the greedy
value run extends past `0.5`, so the transform removes
`; metalness: 0.55` and returns `a`, not the input with the exact substring
`; metalness: 0.5` removed (which would be `a5`). -/
theorem C7_counterexample :
    containsLit "; metalness: 0.5".data "a; metalness: 0.55".data = true ∧
      "a; metalness: 0.55".data =
        "a".data ++ "; metalness: 0.5".data ++ "5".data ∧
      fixContent "a; metalness: 0.55".data ≠ "a".data ++ "5".data := by
  decide

/-- Claim C7 (amended): if the occurrence of `; metalness: 0.5` is the sole
pattern match in the text — no earlier match of the leading-separator
metalness pattern, the value run not extended by a following digit or period,
and no match of any of the other thirteen patterns in the surrounding text —
then the full transform returns exactly the input with that substring removed
(in particular no stray double space or semicolon remains). -/
theorem C7_exact_removal_when_sole_match (a b : List Char)
    (h : soleMetalLeadMatch a b = true) :
    fixContent (a ++ "; metalness: 0.5".data ++ b) = a ++ b := by
  rw [soleMetalLeadMatch] at h
  simp only [Bool.and_eq_true, Bool.not_eq_true'] at h
  obtain ⟨⟨⟨⟨⟨⟨⟨⟨⟨⟨⟨⟨⟨⟨⟨h1, h2⟩, h3⟩, h4⟩, h5⟩, h6⟩, h7⟩, h8⟩, h9⟩, h10⟩,
    h11⟩, h12⟩, h13⟩, h14⟩, h15⟩, h16⟩ := h
  have htokb : mMetalLead ("; metalness: 0.5".data ++ b) = some b := by
    have hsplit : ("; metalness: 0.5".data ++ b : List Char) =
        "; metalness: ".data ++ "0.5".data ++ b := rfl
    have heval : matchTok "; metalness: ".data numCls []
        ("; metalness: ".data ++ "0.5".data ++ b) = eatLit [] b :=
      matchTok_eq (by decide) (by decide) (headNotNum_head h2)
    rw [hsplit]
    exact heval.trans rfl
  have htne : ("; metalness: 0.5".data ++ b : List Char) ≠ [] := by
    intro hx
    have := congrArg List.length hx
    simp [List.length_append] at this
  have hpass1 : subMetalLead (a ++ "; metalness: 0.5".data ++ b) = a ++ b := by
    have h0 : (a ++ "; metalness: 0.5".data ++ b : List Char) =
        a ++ ("; metalness: 0.5".data ++ b) := by rw [List.append_assoc]
    unfold subMetalLead
    rw [h0]
    have hsingle : applySub mMetalLead ([] : List Char)
        (a ++ ("; metalness: 0.5".data ++ b)) = a ++ ([] : List Char) ++ b :=
      applySub_single h1 htokb htne h3
    simpa using hsingle
  show subSemiQuote (subSpaces (subEmisIntBare (subEmisIntTrail (subEmisIntLead
    (subEmisBare (subEmisTrail (subEmisLead (subRoughBare (subRoughTrail
      (subRoughLead (subMetalBare (subMetalTrail (subMetalLead
        (a ++ "; metalness: 0.5".data ++ b)))))))))))))) = a ++ b
  rw [hpass1]
  unfold subMetalTrail subMetalBare subRoughLead subRoughTrail subRoughBare
    subEmisLead subEmisTrail subEmisBare subEmisIntLead subEmisIntTrail
    subEmisIntBare subSpaces subSemiQuote
  rw [applySub_id h4, applySub_id h5, applySub_id h6, applySub_id h7,
    applySub_id h8, applySub_id h9, applySub_id h10, applySub_id h11,
    applySub_id h12, applySub_id h13, applySub_id h14, applySub_id h15,
    applySub_id h16]

/-- Witness for C7 (amended): removal of `; metalness: 0.5` from a larger
attribute string with no other pattern matches. -/
theorem C7_exact_removal_when_sole_match_witness :
    soleMetalLeadMatch "material=\"color: #ff0000".data "\"".data = true ∧
      fixContent ("material=\"color: #ff0000".data ++
        "; metalness: 0.5".data ++ "\"".data) =
        "material=\"color: #ff0000".data ++ "\"".data :=
  ⟨by decide, C7_exact_removal_when_sole_match _ _ (by decide)⟩

/-! ## Claim C6: bare tokens that form an entire quoted value -/

theorem noMatchPref_cls_head {v t : List Char} {cls0 cls : Char → Bool}
    {p : Char} {ps suf : List Char} (hp : cls0 p = false)
    (hv : ∀ c ∈ v, cls0 c = true) :
    noMatchPref (matchTok (p :: ps) cls suf) v t = true :=
  noMatchPref_of_none (fun c hc _ => matchTok_none_head (cls_ne hp (hv c hc)))

theorem matchTok_none_pre_run {pre v B : List Char} {cls : Char → Bool}
    {suf : List Char} (hv : ∀ c ∈ v, cls c = true)
    (hB : ∀ c, B.head? = some c → cls c = false) (hsuf : eatLit suf B = none) :
    matchTok pre cls suf (pre ++ (v ++ B)) = none := by
  cases v with
  | nil =>
    simp only [List.nil_append]
    exact matchTok_none_next hB
  | cons d ds =>
    have h : matchTok pre cls suf (pre ++ (d :: ds) ++ B) = eatLit suf B :=
      matchTok_eq hv (by simp) hB
    rw [List.append_assoc] at h
    rw [h, hsuf]

theorem headQuoteCls {cls : Char → Bool} (h : cls '"' = false) :
    ∀ c, (['"'] : List Char).head? = some c → cls c = false := by
  intro c hc
  simp only [List.head?_cons, Option.some_inj] at hc
  rw [← hc]
  exact h

theorem headQuoteNe {x : Char} (h : ¬('"' = x)) :
    ∀ c, (['"'] : List Char).head? = some c → c ≠ x := by
  intro c hc
  simp only [List.head?_cons, Option.some_inj] at hc
  rw [← hc]
  exact h

theorem fix_bare_value_metalness {v : List Char} (hne : v ≠ [])
    (hv : ∀ c ∈ v, numCls c = true) :
    fixContent ("material=\"metalness: ".data ++ v ++ "\"".data) =
      "material=\"\"".data := by
  have hT : ("material=\"metalness: ".data ++ v ++ "\"".data : List Char) =
      "material=\"metalness: ".data ++ (v ++ "\"".data) :=
    List.append_assoc _ _ _
  rw [hT]
  have hB : ∀ c, ("\"".data : List Char).head? = some c → numCls c = false :=
    headQuoteCls (by decide)
  have hid1 : existsMatchL mMetalLead
      ("material=\"metalness: ".data ++ (v ++ "\"".data)) = false :=
    existsMatchL_append_false (by rfl)
      (existsMatchL_append_false (noMatchPref_cls_head (by decide) hv)
        (by decide))
  have hid2a : mMetalTrail ("metalness: ".data ++ (v ++ "\"".data)) = none :=
    matchTok_none_pre_run hv hB (by decide)
  have hid2b : noMatchPref mMetalTrail "metalness: ".data (v ++ "\"".data) =
      true :=
    noMatchPref_cons hid2a (by rfl)
  have hid2 : existsMatchL mMetalTrail
      ("material=\"metalness: ".data ++ (v ++ "\"".data)) = false := by
    have h0 : existsMatchL mMetalTrail
        ("material=\"".data ++ ("metalness: ".data ++ (v ++ "\"".data))) =
          false :=
      existsMatchL_append_false (by rfl)
        (existsMatchL_append_false hid2b
          (existsMatchL_append_false (noMatchPref_cls_head (by decide) hv)
            (by decide)))
    exact h0
  have hm3 : mMetalBare ("metalness: ".data ++ (v ++ "\"".data)) =
      some "\"".data := by
    have h : matchTok "metalness: ".data numCls [] ("metalness: ".data ++ v ++ "\"".data) =
        eatLit [] "\"".data :=
      matchTok_eq hv hne hB
    rw [List.append_assoc] at h
    exact h.trans rfl
  have htne : ("metalness: ".data ++ (v ++ "\"".data) : List Char) ≠ [] := by
    intro hx
    have := congrArg List.length hx
    simp [List.length_append] at this
  have h3 : subMetalBare ("material=\"metalness: ".data ++ (v ++ "\"".data)) =
      "material=\"\"".data := by
    have h0 : applySub mMetalBare ([] : List Char)
        ("material=\"".data ++ ("metalness: ".data ++ (v ++ "\"".data))) =
        "material=\"".data ++ ([] : List Char) ++ "\"".data :=
      applySub_single (by rfl) hm3 htne (by decide)
    exact h0.trans (by decide)
  have q1 : subMetalLead ("material=\"metalness: ".data ++ (v ++ "\"".data)) =
      "material=\"metalness: ".data ++ (v ++ "\"".data) := applySub_id hid1
  have q2 : subMetalTrail ("material=\"metalness: ".data ++ (v ++ "\"".data)) =
      "material=\"metalness: ".data ++ (v ++ "\"".data) := applySub_id hid2
  show subSemiQuote (subSpaces (subEmisIntBare (subEmisIntTrail (subEmisIntLead
    (subEmisBare (subEmisTrail (subEmisLead (subRoughBare (subRoughTrail
      (subRoughLead (subMetalBare (subMetalTrail (subMetalLead
        ("material=\"metalness: ".data ++ (v ++ "\"".data))))))))))))))) =
    "material=\"\"".data
  rw [q1, q2, h3]
  decide

theorem fix_bare_value_roughness {v : List Char} (hne : v ≠ [])
    (hv : ∀ c ∈ v, numCls c = true) :
    fixContent ("material=\"roughness: ".data ++ v ++ "\"".data) =
      "material=\"\"".data := by
  have hT : ("material=\"roughness: ".data ++ v ++ "\"".data : List Char) =
      "material=\"roughness: ".data ++ (v ++ "\"".data) :=
    List.append_assoc _ _ _
  rw [hT]
  have hB : ∀ c, ("\"".data : List Char).head? = some c → numCls c = false :=
    headQuoteCls (by decide)
  have hid1 : existsMatchL mMetalLead
      ("material=\"roughness: ".data ++ (v ++ "\"".data)) = false :=
    existsMatchL_append_false (by rfl)
      (existsMatchL_append_false (noMatchPref_cls_head (by decide) hv)
        (by decide))
  have hid2 : existsMatchL mMetalTrail
      ("material=\"roughness: ".data ++ (v ++ "\"".data)) = false :=
    existsMatchL_append_false (by rfl)
      (existsMatchL_append_false (noMatchPref_cls_head (by decide) hv)
        (by decide))
  have hid3 : existsMatchL mMetalBare
      ("material=\"roughness: ".data ++ (v ++ "\"".data)) = false :=
    existsMatchL_append_false (by rfl)
      (existsMatchL_append_false (noMatchPref_cls_head (by decide) hv)
        (by decide))
  have hid4 : existsMatchL mRoughLead
      ("material=\"roughness: ".data ++ (v ++ "\"".data)) = false :=
    existsMatchL_append_false (by rfl)
      (existsMatchL_append_false (noMatchPref_cls_head (by decide) hv)
        (by decide))
  have hid5a : mRoughTrail ("roughness: ".data ++ (v ++ "\"".data)) = none :=
    matchTok_none_pre_run hv hB (by decide)
  have hid5b : noMatchPref mRoughTrail "roughness: ".data (v ++ "\"".data) =
      true :=
    noMatchPref_cons hid5a (by rfl)
  have hid5 : existsMatchL mRoughTrail
      ("material=\"roughness: ".data ++ (v ++ "\"".data)) = false := by
    have h0 : existsMatchL mRoughTrail
        ("material=\"".data ++ ("roughness: ".data ++ (v ++ "\"".data))) =
          false :=
      existsMatchL_append_false (by rfl)
        (existsMatchL_append_false hid5b
          (existsMatchL_append_false (noMatchPref_cls_head (by decide) hv)
            (by decide)))
    exact h0
  have hm6 : mRoughBare ("roughness: ".data ++ (v ++ "\"".data)) =
      some "\"".data := by
    have h : matchTok "roughness: ".data numCls [] ("roughness: ".data ++ v ++ "\"".data) =
        eatLit [] "\"".data :=
      matchTok_eq hv hne hB
    rw [List.append_assoc] at h
    exact h.trans rfl
  have htne : ("roughness: ".data ++ (v ++ "\"".data) : List Char) ≠ [] := by
    intro hx
    have := congrArg List.length hx
    simp [List.length_append] at this
  have h6 : subRoughBare ("material=\"roughness: ".data ++ (v ++ "\"".data)) =
      "material=\"\"".data := by
    have h0 : applySub mRoughBare ([] : List Char)
        ("material=\"".data ++ ("roughness: ".data ++ (v ++ "\"".data))) =
        "material=\"".data ++ ([] : List Char) ++ "\"".data :=
      applySub_single (by rfl) hm6 htne (by decide)
    exact h0.trans (by decide)
  have q1 : subMetalLead ("material=\"roughness: ".data ++ (v ++ "\"".data)) =
      "material=\"roughness: ".data ++ (v ++ "\"".data) := applySub_id hid1
  have q2 : subMetalTrail ("material=\"roughness: ".data ++ (v ++ "\"".data)) =
      "material=\"roughness: ".data ++ (v ++ "\"".data) := applySub_id hid2
  have q3 : subMetalBare ("material=\"roughness: ".data ++ (v ++ "\"".data)) =
      "material=\"roughness: ".data ++ (v ++ "\"".data) := applySub_id hid3
  have q4 : subRoughLead ("material=\"roughness: ".data ++ (v ++ "\"".data)) =
      "material=\"roughness: ".data ++ (v ++ "\"".data) := applySub_id hid4
  have q5 : subRoughTrail ("material=\"roughness: ".data ++ (v ++ "\"".data)) =
      "material=\"roughness: ".data ++ (v ++ "\"".data) := applySub_id hid5
  show subSemiQuote (subSpaces (subEmisIntBare (subEmisIntTrail (subEmisIntLead
    (subEmisBare (subEmisTrail (subEmisLead (subRoughBare (subRoughTrail
      (subRoughLead (subMetalBare (subMetalTrail (subMetalLead
        ("material=\"roughness: ".data ++ (v ++ "\"".data))))))))))))))) =
    "material=\"\"".data
  rw [q1, q2, q3, q4, q5, h6]
  decide

theorem fix_bare_value_emissive {v : List Char} (hne : v ≠ [])
    (hv : ∀ c ∈ v, hexCls c = true) :
    fixContent ("material=\"emissive: #".data ++ v ++ "\"".data) =
      "material=\"\"".data := by
  have hT : ("material=\"emissive: #".data ++ v ++ "\"".data : List Char) =
      "material=\"emissive: #".data ++ (v ++ "\"".data) :=
    List.append_assoc _ _ _
  rw [hT]
  have hB : ∀ c, ("\"".data : List Char).head? = some c → hexCls c = false :=
    headQuoteCls (by decide)
  have hid1 : existsMatchL mMetalLead
      ("material=\"emissive: #".data ++ (v ++ "\"".data)) = false :=
    existsMatchL_append_false (by rfl)
      (existsMatchL_append_false (noMatchPref_cls_head (by decide) hv)
        (by decide))
  have hid2 : existsMatchL mMetalTrail
      ("material=\"emissive: #".data ++ (v ++ "\"".data)) = false :=
    existsMatchL_append_false (by rfl)
      (existsMatchL_append_false (noMatchPref_cls_head (by decide) hv)
        (by decide))
  have hid3 : existsMatchL mMetalBare
      ("material=\"emissive: #".data ++ (v ++ "\"".data)) = false :=
    existsMatchL_append_false (by rfl)
      (existsMatchL_append_false (noMatchPref_cls_head (by decide) hv)
        (by decide))
  have hid4 : existsMatchL mRoughLead
      ("material=\"emissive: #".data ++ (v ++ "\"".data)) = false :=
    existsMatchL_append_false (by rfl)
      (existsMatchL_append_false (noMatchPref_cls_head (by decide) hv)
        (by decide))
  have hid5 : existsMatchL mRoughTrail
      ("material=\"emissive: #".data ++ (v ++ "\"".data)) = false :=
    existsMatchL_append_false (by rfl)
      (existsMatchL_append_false (noMatchPref_cls_head (by decide) hv)
        (by decide))
  have hid6 : existsMatchL mRoughBare
      ("material=\"emissive: #".data ++ (v ++ "\"".data)) = false :=
    existsMatchL_append_false (by rfl)
      (existsMatchL_append_false (noMatchPref_cls_head (by decide) hv)
        (by decide))
  have hid7 : existsMatchL mEmisLead
      ("material=\"emissive: #".data ++ (v ++ "\"".data)) = false :=
    existsMatchL_append_false (by rfl)
      (existsMatchL_append_false (noMatchPref_cls_head (by decide) hv)
        (by decide))
  have hid8a : mEmisTrail ("emissive: #".data ++ (v ++ "\"".data)) = none :=
    matchTok_none_pre_run hv hB (by decide)
  have hid8b : noMatchPref mEmisTrail "emissive: #".data (v ++ "\"".data) =
      true :=
    noMatchPref_cons hid8a (by rfl)
  have hid8 : existsMatchL mEmisTrail
      ("material=\"emissive: #".data ++ (v ++ "\"".data)) = false := by
    have h0 : existsMatchL mEmisTrail
        ("material=\"".data ++ ("emissive: #".data ++ (v ++ "\"".data))) =
          false :=
      existsMatchL_append_false (by rfl)
        (existsMatchL_append_false hid8b
          (existsMatchL_append_false
            (noMatchPref_two hv
              (fun d hd => cls_ne (by decide) hd)
              (headQuoteNe (by decide)))
            (by decide)))
    exact h0
  have hm9 : mEmisBare ("emissive: #".data ++ (v ++ "\"".data)) =
      some "\"".data := by
    have h : matchTok "emissive: #".data hexCls [] ("emissive: #".data ++ v ++ "\"".data) =
        eatLit [] "\"".data :=
      matchTok_eq hv hne hB
    rw [List.append_assoc] at h
    exact h.trans rfl
  have htne : ("emissive: #".data ++ (v ++ "\"".data) : List Char) ≠ [] := by
    intro hx
    have := congrArg List.length hx
    simp [List.length_append] at this
  have h9 : subEmisBare ("material=\"emissive: #".data ++ (v ++ "\"".data)) =
      "material=\"\"".data := by
    have h0 : applySub mEmisBare ([] : List Char)
        ("material=\"".data ++ ("emissive: #".data ++ (v ++ "\"".data))) =
        "material=\"".data ++ ([] : List Char) ++ "\"".data :=
      applySub_single (by rfl) hm9 htne (by decide)
    exact h0.trans (by decide)
  have q1 : subMetalLead ("material=\"emissive: #".data ++ (v ++ "\"".data)) =
      "material=\"emissive: #".data ++ (v ++ "\"".data) := applySub_id hid1
  have q2 : subMetalTrail ("material=\"emissive: #".data ++ (v ++ "\"".data)) =
      "material=\"emissive: #".data ++ (v ++ "\"".data) := applySub_id hid2
  have q3 : subMetalBare ("material=\"emissive: #".data ++ (v ++ "\"".data)) =
      "material=\"emissive: #".data ++ (v ++ "\"".data) := applySub_id hid3
  have q4 : subRoughLead ("material=\"emissive: #".data ++ (v ++ "\"".data)) =
      "material=\"emissive: #".data ++ (v ++ "\"".data) := applySub_id hid4
  have q5 : subRoughTrail ("material=\"emissive: #".data ++ (v ++ "\"".data)) =
      "material=\"emissive: #".data ++ (v ++ "\"".data) := applySub_id hid5
  have q6 : subRoughBare ("material=\"emissive: #".data ++ (v ++ "\"".data)) =
      "material=\"emissive: #".data ++ (v ++ "\"".data) := applySub_id hid6
  have q7 : subEmisLead ("material=\"emissive: #".data ++ (v ++ "\"".data)) =
      "material=\"emissive: #".data ++ (v ++ "\"".data) := applySub_id hid7
  have q8 : subEmisTrail ("material=\"emissive: #".data ++ (v ++ "\"".data)) =
      "material=\"emissive: #".data ++ (v ++ "\"".data) := applySub_id hid8
  show subSemiQuote (subSpaces (subEmisIntBare (subEmisIntTrail (subEmisIntLead
    (subEmisBare (subEmisTrail (subEmisLead (subRoughBare (subRoughTrail
      (subRoughLead (subMetalBare (subMetalTrail (subMetalLead
        ("material=\"emissive: #".data ++ (v ++ "\"".data))))))))))))))) =
    "material=\"\"".data
  rw [q1, q2, q3, q4, q5, q6, q7, q8, h9]
  decide

theorem fix_bare_value_emissiveIntensity {v : List Char} (hne : v ≠ [])
    (hv : ∀ c ∈ v, numCls c = true) :
    fixContent ("material=\"emissiveIntensity: ".data ++ v ++ "\"".data) =
      "material=\"\"".data := by
  have hT : ("material=\"emissiveIntensity: ".data ++ v ++ "\"".data :
      List Char) =
      "material=\"emissiveIntensity: ".data ++ (v ++ "\"".data) :=
    List.append_assoc _ _ _
  rw [hT]
  have hB : ∀ c, ("\"".data : List Char).head? = some c → numCls c = false :=
    headQuoteCls (by decide)
  have hid1 : existsMatchL mMetalLead
      ("material=\"emissiveIntensity: ".data ++ (v ++ "\"".data)) = false :=
    existsMatchL_append_false (by rfl)
      (existsMatchL_append_false (noMatchPref_cls_head (by decide) hv)
        (by decide))
  have hid2 : existsMatchL mMetalTrail
      ("material=\"emissiveIntensity: ".data ++ (v ++ "\"".data)) = false :=
    existsMatchL_append_false (by rfl)
      (existsMatchL_append_false (noMatchPref_cls_head (by decide) hv)
        (by decide))
  have hid3 : existsMatchL mMetalBare
      ("material=\"emissiveIntensity: ".data ++ (v ++ "\"".data)) = false :=
    existsMatchL_append_false (by rfl)
      (existsMatchL_append_false (noMatchPref_cls_head (by decide) hv)
        (by decide))
  have hid4 : existsMatchL mRoughLead
      ("material=\"emissiveIntensity: ".data ++ (v ++ "\"".data)) = false :=
    existsMatchL_append_false (by rfl)
      (existsMatchL_append_false (noMatchPref_cls_head (by decide) hv)
        (by decide))
  have hid5 : existsMatchL mRoughTrail
      ("material=\"emissiveIntensity: ".data ++ (v ++ "\"".data)) = false :=
    existsMatchL_append_false (by rfl)
      (existsMatchL_append_false (noMatchPref_cls_head (by decide) hv)
        (by decide))
  have hid6 : existsMatchL mRoughBare
      ("material=\"emissiveIntensity: ".data ++ (v ++ "\"".data)) = false :=
    existsMatchL_append_false (by rfl)
      (existsMatchL_append_false (noMatchPref_cls_head (by decide) hv)
        (by decide))
  have hid7 : existsMatchL mEmisLead
      ("material=\"emissiveIntensity: ".data ++ (v ++ "\"".data)) = false :=
    existsMatchL_append_false (by rfl)
      (existsMatchL_append_false (noMatchPref_cls_head (by decide) hv)
        (by decide))
  have hid8 : existsMatchL mEmisTrail
      ("material=\"emissiveIntensity: ".data ++ (v ++ "\"".data)) = false :=
    existsMatchL_append_false (by rfl)
      (existsMatchL_append_false (noMatchPref_cls_head (by decide) hv)
        (by decide))
  have hid9 : existsMatchL mEmisBare
      ("material=\"emissiveIntensity: ".data ++ (v ++ "\"".data)) = false :=
    existsMatchL_append_false (by rfl)
      (existsMatchL_append_false (noMatchPref_cls_head (by decide) hv)
        (by decide))
  have hid10 : existsMatchL mEmisIntLead
      ("material=\"emissiveIntensity: ".data ++ (v ++ "\"".data)) = false :=
    existsMatchL_append_false (by rfl)
      (existsMatchL_append_false (noMatchPref_cls_head (by decide) hv)
        (by decide))
  have hid11a : mEmisIntTrail
      ("emissiveIntensity: ".data ++ (v ++ "\"".data)) = none :=
    matchTok_none_pre_run hv hB (by decide)
  have hid11b : noMatchPref mEmisIntTrail "emissiveIntensity: ".data
      (v ++ "\"".data) = true :=
    noMatchPref_cons hid11a (by rfl)
  have hid11 : existsMatchL mEmisIntTrail
      ("material=\"emissiveIntensity: ".data ++ (v ++ "\"".data)) = false := by
    have h0 : existsMatchL mEmisIntTrail
        ("material=\"".data ++
          ("emissiveIntensity: ".data ++ (v ++ "\"".data))) = false :=
      existsMatchL_append_false (by rfl)
        (existsMatchL_append_false hid11b
          (existsMatchL_append_false (noMatchPref_cls_head (by decide) hv)
            (by decide)))
    exact h0
  have hm12 : mEmisIntBare ("emissiveIntensity: ".data ++ (v ++ "\"".data)) =
      some "\"".data := by
    have h : matchTok "emissiveIntensity: ".data numCls [] ("emissiveIntensity: ".data ++ v ++ "\"".data) =
        eatLit [] "\"".data :=
      matchTok_eq hv hne hB
    rw [List.append_assoc] at h
    exact h.trans rfl
  have htne : ("emissiveIntensity: ".data ++ (v ++ "\"".data) : List Char) ≠
      [] := by
    intro hx
    have := congrArg List.length hx
    simp [List.length_append] at this
  have h12 : subEmisIntBare
      ("material=\"emissiveIntensity: ".data ++ (v ++ "\"".data)) =
      "material=\"\"".data := by
    have h0 : applySub mEmisIntBare ([] : List Char)
        ("material=\"".data ++ ("emissiveIntensity: ".data ++ (v ++ "\"".data))) =
        "material=\"".data ++ ([] : List Char) ++ "\"".data :=
      applySub_single (by rfl) hm12 htne (by decide)
    exact h0.trans (by decide)
  have q1 : subMetalLead
      ("material=\"emissiveIntensity: ".data ++ (v ++ "\"".data)) =
      "material=\"emissiveIntensity: ".data ++ (v ++ "\"".data) :=
    applySub_id hid1
  have q2 : subMetalTrail
      ("material=\"emissiveIntensity: ".data ++ (v ++ "\"".data)) =
      "material=\"emissiveIntensity: ".data ++ (v ++ "\"".data) :=
    applySub_id hid2
  have q3 : subMetalBare
      ("material=\"emissiveIntensity: ".data ++ (v ++ "\"".data)) =
      "material=\"emissiveIntensity: ".data ++ (v ++ "\"".data) :=
    applySub_id hid3
  have q4 : subRoughLead
      ("material=\"emissiveIntensity: ".data ++ (v ++ "\"".data)) =
      "material=\"emissiveIntensity: ".data ++ (v ++ "\"".data) :=
    applySub_id hid4
  have q5 : subRoughTrail
      ("material=\"emissiveIntensity: ".data ++ (v ++ "\"".data)) =
      "material=\"emissiveIntensity: ".data ++ (v ++ "\"".data) :=
    applySub_id hid5
  have q6 : subRoughBare
      ("material=\"emissiveIntensity: ".data ++ (v ++ "\"".data)) =
      "material=\"emissiveIntensity: ".data ++ (v ++ "\"".data) :=
    applySub_id hid6
  have q7 : subEmisLead
      ("material=\"emissiveIntensity: ".data ++ (v ++ "\"".data)) =
      "material=\"emissiveIntensity: ".data ++ (v ++ "\"".data) :=
    applySub_id hid7
  have q8 : subEmisTrail
      ("material=\"emissiveIntensity: ".data ++ (v ++ "\"".data)) =
      "material=\"emissiveIntensity: ".data ++ (v ++ "\"".data) :=
    applySub_id hid8
  have q9 : subEmisBare
      ("material=\"emissiveIntensity: ".data ++ (v ++ "\"".data)) =
      "material=\"emissiveIntensity: ".data ++ (v ++ "\"".data) :=
    applySub_id hid9
  have q10 : subEmisIntLead
      ("material=\"emissiveIntensity: ".data ++ (v ++ "\"".data)) =
      "material=\"emissiveIntensity: ".data ++ (v ++ "\"".data) :=
    applySub_id hid10
  have q11 : subEmisIntTrail
      ("material=\"emissiveIntensity: ".data ++ (v ++ "\"".data)) =
      "material=\"emissiveIntensity: ".data ++ (v ++ "\"".data) :=
    applySub_id hid11
  show subSemiQuote (subSpaces (subEmisIntBare (subEmisIntTrail (subEmisIntLead
    (subEmisBare (subEmisTrail (subEmisLead (subRoughBare (subRoughTrail
      (subRoughLead (subMetalBare (subMetalTrail (subMetalLead
        ("material=\"emissiveIntensity: ".data ++ (v ++ "\"".data))))))))))))))) =
    "material=\"\"".data
  rw [q1, q2, q3, q4, q5, q6, q7, q8, q9, q10, q11, h12]
  decide

/-- Claim C6: for each of the four property names, a bare-form token
occurrence (with no surrounding separators) that constitutes the entire
quoted attribute value is removed entirely by the full transform, leaving an
empty value with no dangling colon-space; in particular the transform maps
`material="metalness: 1.0"` to `material=""`. -/
theorem C6_bare_entire_value_removed :
    (∀ v : List Char, v ≠ [] → (∀ c ∈ v, numCls c = true) →
      fixContent ("material=\"metalness: ".data ++ v ++ "\"".data) =
        "material=\"\"".data) ∧
    (∀ v : List Char, v ≠ [] → (∀ c ∈ v, numCls c = true) →
      fixContent ("material=\"roughness: ".data ++ v ++ "\"".data) =
        "material=\"\"".data) ∧
    (∀ v : List Char, v ≠ [] → (∀ c ∈ v, hexCls c = true) →
      fixContent ("material=\"emissive: #".data ++ v ++ "\"".data) =
        "material=\"\"".data) ∧
    (∀ v : List Char, v ≠ [] → (∀ c ∈ v, numCls c = true) →
      fixContent ("material=\"emissiveIntensity: ".data ++ v ++ "\"".data) =
        "material=\"\"".data) ∧
    fixContent "material=\"metalness: 1.0\"".data = "material=\"\"".data :=
  ⟨fun _ h1 h2 => fix_bare_value_metalness h1 h2,
   fun _ h1 h2 => fix_bare_value_roughness h1 h2,
   fun _ h1 h2 => fix_bare_value_emissive h1 h2,
   fun _ h1 h2 => fix_bare_value_emissiveIntensity h1 h2,
   by decide⟩

/-- Witness for C6 at concrete values for each of the four properties. -/
theorem C6_bare_entire_value_removed_witness :
    fixContent "material=\"metalness: 1.0\"".data = "material=\"\"".data ∧
      fixContent "material=\"roughness: 0.5\"".data = "material=\"\"".data ∧
      fixContent "material=\"emissive: #ff0000\"".data =
        "material=\"\"".data ∧
      fixContent "material=\"emissiveIntensity: 2.5\"".data =
        "material=\"\"".data :=
  ⟨C6_bare_entire_value_removed.1 "1.0".data (by decide) (by decide),
   C6_bare_entire_value_removed.2.1 "0.5".data (by decide) (by decide),
   C6_bare_entire_value_removed.2.2.1 "ff0000".data (by decide) (by decide),
   C6_bare_entire_value_removed.2.2.2.1 "2.5".data (by decide) (by decide)⟩
